import Mathlib

/-!
Verification of the BEASTling two-stage compiler (configuration resolution and
BEAST XML document assembly) against its natural-language specification.

The definitions below are a shallow embedding of the Python source:
* `beastxml.py` — `BeastXml.add_taxon_set`, `BeastXml.add_calibrations`,
  `BeastXml.add_init`, `BeastXml.__init__`,
* `configuration.py` — `Configuration.valid_overlaps`, `Configuration.process`,
* `fileio/datareaders.py` — `load_beastling_data`, `load_cldf_data`,
* `cli.py` — `do_generate`, `do_extract`.

Python sets of taxon identifiers are modelled as `Finset String`, Python dicts
as association lists with insert-or-overwrite update (matching CPython's
key-overwrite semantics), raised exceptions as `Except` errors, and XML
element trees as a rose tree `XmlNode`.
-/

namespace Beastling

/-- Python exceptions raised by the embedded code paths. -/
inductive PyErr where
  | typeError
  | attributeError
  | keyError
  | indexError
  | valueError (msg : String)
  deriving Repr, DecidableEq

/-! ## XML element model (`xml.etree.ElementTree` fragments) -/

/-- An XML element: tag, attribute list (in insertion order), optional text,
and child elements (in insertion order). -/
inductive XmlNode where
  | elem (tag : String) (attribs : List (String × String)) (text : Option String)
      (children : List XmlNode)

/-- The tag of an element. -/
def XmlNode.tag : XmlNode → String
  | .elem t _ _ _ => t

/-- Attribute lookup on an element (first binding wins). -/
def XmlNode.attr : XmlNode → String → Option String
  | .elem _ attribs _ _, k => (attribs.find? (fun p => p.1 == k)).map (·.2)

/-- The children of an element. -/
def XmlNode.children : XmlNode → List XmlNode
  | .elem _ _ _ cs => cs

/-- An element is a taxon-set *reference* iff it carries an `idref` attribute. -/
def XmlNode.isRefNode (n : XmlNode) : Bool :=
  (n.attr "idref").isSome

/-! ## Taxon-set deduplication cache (`BeastXml.add_taxon_set`) -/

/-- One request to emit a named taxon group: the requested identifier, the
taxon list, and whether taxa should be defined rather than referenced. -/
structure TaxonSetReq where
  label : String
  langs : List String
  defineTaxa : Bool
  deriving Repr, DecidableEq

/-- The registry `BeastXml._taxon_sets`: identifier to taxon membership, in
insertion order (a Python dict). -/
abbrev Registry := List (String × Finset String)

/-- Python dict update `d[k] = v`: overwrite in place if the key is present,
otherwise append. -/
def Registry.store (reg : Registry) (k : String) (v : Finset String) : Registry :=
  if reg.any (fun p => p.1 == k) then
    reg.map (fun p => if p.1 == k then (k, v) else p)
  else
    reg ++ [(k, v)]

/-- The full taxon-set definition element emitted by `add_taxon_set` when no
registered set has the same membership. -/
def taxonSetNode (label : String) (langs : List String) (defineTaxa : Bool) : XmlNode :=
  .elem "taxonset" [("id", label), ("spec", "TaxonSet")] none
    [.elem "plate" [("var", "language"), ("range", String.intercalate "," langs)] none
      [.elem "taxon" [((if defineTaxa then "id" else "idref"), "$(language)")] none []]]

/-- The reference element emitted by `add_taxon_set` when a registered set has
the same membership. -/
def refNode (idref : String) : XmlNode :=
  .elem "taxonset" [("idref", idref), ("spec", "TaxonSet")] none []

/-- `BeastXml.add_taxon_set`: linear-scan the registry for an entry whose
membership equals `set(langs)`; if found emit a reference, otherwise emit a
full definition and register it under the requested label. -/
def addTaxonSet (reg : Registry) (r : TaxonSetReq) : XmlNode × Registry :=
  match reg.find? (fun p => decide (p.2 = r.langs.toFinset)) with
  | some p => (refNode p.1, reg)
  | none => (taxonSetNode r.label r.langs r.defineTaxa,
             reg.store r.label r.langs.toFinset)

/-- Process a sequence of taxon-group emission requests, threading the
registry, and collect the emitted elements. -/
def runTaxonSets (reg : Registry) : List TaxonSetReq → List XmlNode × Registry
  | [] => ([], reg)
  | r :: rs =>
    ((addTaxonSet reg r).1 :: (runTaxonSets (addTaxonSet reg r).2 rs).1,
     (runTaxonSets (addTaxonSet reg r).2 rs).2)

/-! ## Calibrations (`BeastXml.add_calibrations`) -/

/-- The slice of a calibration object read by `add_calibrations` and
`add_init`: distribution kind, the two distribution parameters (carried as
their rendered strings), the originate flag and the resolved clade taxa. -/
structure Calibration where
  dist : String
  param1 : String
  param2 : String
  originate : Bool
  langs : List String

/-- `{"normal": "Normal", "lognormal": "LogNormal", "uniform": "Uniform"}`. -/
def distTypeTable : List (String × String) :=
  [("normal", "Normal"), ("lognormal", "LogNormal"), ("uniform", "Uniform")]

/-- `p1_names = {"Normal": "mean", "LogNormal": "M", "Uniform": "lower"}`. -/
def p1Names : List (String × String) :=
  [("Normal", "mean"), ("LogNormal", "M"), ("Uniform", "lower")]

/-- `p2_names = {"Normal": "sigma", "LogNormal": "S", "Uniform": "upper"}`. -/
def p2Names : List (String × String) :=
  [("Normal", "sigma"), ("LogNormal", "S"), ("Uniform", "upper")]

/-- The body of the `add_calibrations` loop for one `(clade, cal)` entry:
builds the MRCAPrior element with its taxon-set child (threading the
deduplication registry) and its distribution child.  An unknown distribution
kind raises `KeyError`. -/
def addCalibration (reg : Registry) (clade : String) (cal : Calibration) :
    Except PyErr (XmlNode × Registry) :=
  let attribs := [("id", clade ++ "MRCA"), ("monophyletic", "true"),
      ("spec", "beast.math.distributions.MRCAPrior"),
      ("tree", "@Tree.t:beastlingTree")] ++
    (if cal.originate then [("useOriginate", "true")] else [])
  let taxonsetname :=
    if clade.endsWith "_originate" then clade.dropRight "_originate".length else clade
  let ts := addTaxonSet reg ⟨taxonsetname, cal.langs, false⟩
  match distTypeTable.lookup cal.dist with
  | none => .error .keyError
  | some dt =>
    let dattribs := [("id", "CalibrationDistribution." ++ clade),
        ("name", "distr"), ("offset", "0.0")] ++
      (if dt = "Uniform" then [("lower", cal.param1), ("upper", cal.param2)] else [])
    let dchildren : List XmlNode :=
      if dt = "Uniform" then []
      else
        [.elem "parameter"
            [("id", "CalibrationDistribution." ++ clade ++ ".param1"),
             ("name", (p1Names.lookup dt).getD ""), ("estimate", "false")]
            (some cal.param1) [],
         .elem "parameter"
            [("id", "CalibrationDistribution." ++ clade ++ ".param2"),
             ("name", (p2Names.lookup dt).getD ""), ("estimate", "false")]
            (some cal.param2) []]
    .ok (.elem "distribution" attribs none [ts.1, .elem dt dattribs none dchildren],
         ts.2)

/-- Emit the calibrations of a (key-sorted) list of entries in order,
threading the taxon-set registry. -/
def addCalibrationsAux (reg : Registry) :
    List (String × Calibration) → Except PyErr (List XmlNode × Registry)
  | [] => .ok ([], reg)
  | (clade, cal) :: rest =>
    match addCalibration reg clade cal with
    | .error e => .error e
    | .ok p =>
      match addCalibrationsAux p.2 rest with
      | .error e => .error e
      | .ok q => .ok (p.1 :: q.1, q.2)

/-- `BeastXml.add_calibrations`: iterate over `sorted(calibrations.items())`. -/
def addCalibrations (reg : Registry) (cals : List (String × Calibration)) :
    Except PyErr (List XmlNode × Registry) :=
  addCalibrationsAux reg (cals.mergeSort (fun a b => a.1 ≤ b.1))

/-! ## Tree initializer choice (`BeastXml.add_init`) -/

/-- The slice of the processed configuration read by `add_init`. -/
structure BXConfig where
  starting_tree : String
  monophyly : Bool
  languages : List String
  calibrations : List (String × Calibration)

/-- The `beast.util.TreeParser` init element for an explicit starting tree. -/
def parseTreeInit (newick : String) : XmlNode :=
  .elem "init" [("estimate", "false"), ("id", "startingTree"),
    ("initial", "@Tree.t:beastlingTree"), ("spec", "beast.util.TreeParser"),
    ("IsLabelledNewick", "true"), ("newick", newick)] none []

/-- The `RandomTree` init element with its constant-population model. -/
def randomTreeInit : XmlNode :=
  .elem "init" [("estimate", "false"), ("id", "startingTree"),
    ("initial", "@Tree.t:beastlingTree"), ("taxonset", "@taxa"),
    ("spec", "beast.evolution.tree.RandomTree")] none
    [.elem "populationModel" [("spec", "ConstantPopulation")] none
      [.elem "popSize" [("spec", "parameter.RealParameter"), ("value", "1")] none []]]

/-- The `SimpleRandomTree` init element. -/
def simpleRandomTreeInit : XmlNode :=
  .elem "init" [("estimate", "false"), ("id", "startingTree"),
    ("initial", "@Tree.t:beastlingTree"), ("taxonset", "@taxa"),
    ("spec", "beast.evolution.tree.SimpleRandomTree")] none []

/-- The `ConstrainedRandomTree` init element. -/
def constrainedRandomTreeInit : XmlNode :=
  .elem "init" [("estimate", "false"), ("id", "startingTree"),
    ("initial", "@Tree.t:beastlingTree"), ("taxonset", "@taxa"),
    ("spec", "beast.evolution.tree.ConstrainedRandomTree"),
    ("constraints", "@constraints")] none
    [.elem "populationModel" [("spec", "ConstantPopulation")] none
      [.elem "popSize" [("spec", "parameter.RealParameter"), ("value", "1")] none []]]

/-- `BeastXml.add_init`: the tree-initializer decision chain, first match
wins. -/
def addInit (cfg : BXConfig) : XmlNode :=
  if cfg.starting_tree ≠ "" then parseTreeInit cfg.starting_tree
  else if cfg.monophyly = true ∧ 2 < cfg.languages.length then constrainedRandomTreeInit
  else if cfg.calibrations.any (fun p => p.2.dist == "uniform") then simpleRandomTreeInit
  else randomTreeInit

/-! ## Builder construction effects (`BeastXml.__init__`) -/

/-- The slice of a model object visible to the builder: `__init__` assigns
`model.beastxml = self` to every model of the configuration. -/
structure BModel where
  name : String
  beastxml : Option Unit
  deriving Repr, DecidableEq

/-- The slice of a clock object visible to the builder. -/
structure BClock where
  name : String
  beastxml : Option Unit
  deriving Repr, DecidableEq

/-- The configuration state reachable from the builder. -/
structure BuilderConfig where
  processed : Bool
  languages : List String
  monophyly : Bool
  starting_tree : String
  sample_topology : Bool
  sample_branch_lengths : Bool
  all_models : List BModel
  clocks : List BClock
  deriving Repr, DecidableEq

/-- The effect of `BeastXml.__init__` (lines 29-40) on configuration-reachable
state, for an already-processed configuration (when the configuration is not
yet processed the code first runs `config.process()`; the claims below
precondition on `processed`): the builder stores a back-reference to itself
into every model and every clock of the configuration before building the
document. -/
def beastXmlInitConfig (c : BuilderConfig) : BuilderConfig :=
  { c with
    all_models := c.all_models.map (fun m => { m with beastxml := some () }),
    clocks := c.clocks.map (fun k => { k with beastxml := some () }) }

/-! ## String primitives

Python string operations, re-implemented over character lists so that every
definition evaluates by kernel reduction (the corresponding core-library
string functions are implemented over byte positions and do not reduce). -/

/-- ASCII `str.lower` on one character. -/
def pyCharLower (c : Char) : Char :=
  if 65 ≤ c.toNat ∧ c.toNat ≤ 90 then Char.ofNat (c.toNat + 32) else c

/-- ASCII `str.lower`. -/
def pyLower (s : String) : String := ⟨s.data.map pyCharLower⟩

/-- The whitespace characters stripped by `str.strip()`. -/
def pyIsSpace (c : Char) : Bool :=
  c = ' ' || c = '\t' || c = '\n' || c = '\r' || c = '\x0b' || c = '\x0c'

/-- `str.strip()`: drop leading and trailing whitespace. -/
def pyStrip (s : String) : String :=
  ⟨((s.data.dropWhile pyIsSpace).reverse.dropWhile pyIsSpace).reverse⟩

/-- The accumulator loop of `str.split(sep)` for a one-character separator. -/
def pySplitCharAux (sep : Char) : List Char → List Char → List String
  | [], acc => [⟨acc.reverse⟩]
  | c :: cs, acc =>
    if c = sep then ⟨acc.reverse⟩ :: pySplitCharAux sep cs []
    else pySplitCharAux sep cs (c :: acc)

/-- `str.split(sep)` for a one-character separator. -/
def pySplitChar (sep : Char) (s : String) : List String :=
  pySplitCharAux sep s.data []

/-- Lexicographic less-or-equal on character lists (Python's string order,
restricted to the code points we use). -/
def pyStrLeList : List Char → List Char → Bool
  | [], _ => true
  | _ :: _, [] => false
  | a :: as, b :: bs => if a < b then true else if b < a then false else pyStrLeList as bs

/-- Lexicographic less-or-equal on strings. -/
def pyStrLe (a b : String) : Bool := pyStrLeList a.data b.data

/-- `pyStrLeList` decides the negation of the lexicographic strict order. -/
def pyStrLeList_iff : ∀ (as bs : List Char),
    pyStrLeList as bs = true ↔ ¬ List.Lex (· < ·) bs as
  | [], bs => by
    simp only [pyStrLeList]
    constructor
    · intro _ h
      cases h
    · intro _
      trivial
  | a :: as, [] => by
    simp only [pyStrLeList]
    constructor
    · intro h
      cases h
    · intro h
      exact absurd List.Lex.nil h
  | a :: as, b :: bs => by
    simp only [pyStrLeList]
    by_cases hab : a < b
    · simp only [if_pos hab]
      constructor
      · intro _ h
        cases h with
        | cons h' => exact absurd hab (lt_irrefl a)
        | rel h' => exact asymm hab h'
      · intro _
        trivial
    · rw [if_neg hab]
      by_cases hba : b < a
      · simp only [if_pos hba]
        constructor
        · intro h
          cases h
        · intro h
          exact absurd (List.Lex.rel hba) h
      · rw [if_neg hba]
        have heq : a = b := le_antisymm (not_lt.1 hba) (not_lt.1 hab)
        subst heq
        rw [pyStrLeList_iff as bs]
        constructor
        · intro h hlt
          cases hlt with
          | cons h' => exact h h'
          | rel h' => exact absurd h' (lt_irrefl a)
        · intro h hlt
          exact h (List.Lex.cons hlt)

/-- `pyStrLe` agrees with the library order on strings. -/
def pyStrLe_iff (a b : String) : pyStrLe a b = true ↔ a ≤ b := by
  rw [String.le_iff_toList_le, ← not_lt]
  exact pyStrLeList_iff a.data b.data

/-- A kernel-reducible decision procedure for string less-or-equal. -/
def decStrLe : DecidableRel (fun a b : String => a ≤ b) :=
  fun a b => decidable_of_iff (pyStrLe a b = true) (pyStrLe_iff a b)

/-- `sorted(...)` on a list of strings: insertion sort by the string order. -/
def pySorted (l : List String) : List String :=
  @List.insertionSort String (· ≤ ·) decStrLe l

/-- `sorted(...)` on a Python set of strings: the sorted list of its
elements. -/
def pySortedFinset (s : Finset String) : List String :=
  Quotient.lift pySorted
    (fun a b hab => List.eq_of_perm_of_sorted
      (((@List.perm_insertionSort String (· ≤ ·) decStrLe a).trans hab).trans
        (@List.perm_insertionSort String (· ≤ ·) decStrLe b).symm)
      (@List.sorted_insertionSort String (· ≤ ·) decStrLe _ _ a)
      (@List.sorted_insertionSort String (· ≤ ·) decStrLe _ _ b))
    s.val

/-! ## Configuration resolution (`Configuration.process`)

Python 2 semantics matter here: `/` on ints is floor division, and
`os.path.exists` applied to a non-string (the list that `process` itself
stores into `self.families`) raises `TypeError` (the `posixpath.exists`
wrapper only swallows `os.error`). -/

/-- A value that is a Python string before processing and a list of strings
afterwards (`self.families`). -/
abbrev StrOrList := String ⊕ List String

/-- One parsed `[model ...]` config section, restricted to the keys `process`
reads. -/
structure ModelSection where
  name : String
  model : Option String
  data : Option String
  deriving Repr, DecidableEq

/-- An instantiated model object, restricted to the state `process` reads
back: its section name, its type tag, and the taxon keys of its loaded data
(`model.data.keys()`). -/
structure Model where
  name : String
  typ : String
  dataKeys : Finset String
  deriving DecidableEq

/-- The mutable state of a `Configuration` object (the fields touched by
`process`). -/
structure Configuration where
  processed : Bool
  messages : List String
  chainlength : Int
  log_every : Int
  families : StrOrList
  overlap : String
  starting_tree : String
  monophyly : Bool
  stdin_data : Bool
  model_configs : List ModelSection
  classifications : List (String × List String)
  lang_filter : Finset String
  models : List Model
  languages : List String
  deriving DecidableEq

/-- The external world `process` reads: the filesystem (path to file text),
the Glottolog classification (taxon to the flattened name/glottocode chain
of its ancestors, abstracting `load_glotto_class`), and the per-data-source
taxon keys delivered by the data readers that the model constructors invoke. -/
structure World where
  files : List (String × String)
  classifications : List (String × List String)
  dataKeys : List (String × List String)

/-- Python 2 `file.readlines()` followed by `.strip()` of each line. -/
def pyReadlines (s : String) : List String :=
  let parts := pySplitChar '\n' s
  if parts.getLast? = some "" then parts.dropLast else parts

/-- The `log_every` derivation: an unset (zero) `log_every` becomes
`chainlength / 10000` (Python 2 floor division), forced to 1 when that
quotient is zero. -/
def deriveLogEvery (log_every chainlength : Int) : Int :=
  if log_every ≠ 0 then log_every
  else if Int.fdiv chainlength 10000 = 0 then 1
  else Int.fdiv chainlength 10000

/-- The `[DEPENDENCY]` message appended when monophyly is requested without a
starting tree. -/
def monophylyMessages (c : Configuration) : List String :=
  if c.monophyly = true ∧ c.starting_tree = "" then
    c.messages ++ ["[DEPENDENCY] ConstrainedRandomTree is implemented in the BEAST package BEASTLabs."]
  else c.messages

/-- The families-handling step: `os.path.exists(self.families)` raises
`TypeError` when `families` is already a list; otherwise `families` becomes
the stripped lines of the named file, or the comma-split of the string. -/
def familiesStep (w : World) (c : Configuration) : Except PyErr Configuration :=
  match c.families with
  | .inr _ => .error .typeError
  | .inl s =>
    match w.files.lookup s with
    | some content => .ok { c with families := .inr ((pyReadlines content).map pyStrip) }
    | none => .ok { c with families := .inr ((pySplitChar ',' s).map pyStrip) }

/-- Replace a starting-tree filename by the stripped file content when the
file exists. -/
def startingTreeStep (w : World) (c : Configuration) : Configuration :=
  match w.files.lookup c.starting_tree with
  | some content => { c with starting_tree := pyStrip content }
  | none => c

/-- The families value as a list (it always is one after `familiesStep`). -/
def familiesList (c : Configuration) : List String :=
  match c.families with
  | .inl _ => []
  | .inr l => l

/-- Load the classification map and derive `lang_filter`: empty for the
wildcard `["*"]`, otherwise the taxa whose flattened ancestor chain meets any
requested family name. -/
def classificationStep (w : World) (c : Configuration) : Configuration :=
  let fams := familiesList c
  let lang_filter : Finset String :=
    if fams = ["*"] then ∅
    else ((w.classifications.filter
        (fun p => fams.any (fun fam => p.2.contains fam))).map Prod.fst).toFinset
  { c with classifications := w.classifications, lang_filter := lang_filter }

/-- On `--stdin`, point every model section at the stdin data source. -/
def stdinStep (c : Configuration) : Configuration :=
  if c.stdin_data then
    { c with model_configs := c.model_configs.map (fun m => { m with data := some "stdin" }) }
  else c

/-- Instantiate one model section: missing `model` or `data` keys and unknown
model types raise `ValueError`; otherwise the model constructor loads the
data source, and the world delivers its taxon keys. -/
def instantiateModel (w : World) (mc : ModelSection) : Except PyErr Model :=
  match mc.model with
  | none => .error (.valueError ("Model not specified for model section " ++ mc.name ++ "."))
  | some mtype =>
    match mc.data with
    | none => .error (.valueError ("Data source not specified in model section " ++ mc.name ++ "."))
    | some dsource =>
      if pyLower mtype = "bsvs" ∨ pyLower mtype = "covarion" ∨ pyLower mtype = "mk" then
        match w.dataKeys.lookup dsource with
        | some keys => .ok ⟨mc.name, pyLower mtype, keys.toFinset⟩
        | none => .error (.valueError ("Could not load data source " ++ dsource))
      else
        .error (.valueError ("Unknown model type " ++ mtype ++ " for model section " ++ mc.name ++ "."))

/-- Instantiate the model sections in order; the first failure aborts. -/
def instantiateModels (w : World) : List ModelSection → Except PyErr (List Model)
  | [] => .ok []
  | mc :: rest =>
    match instantiateModel w mc with
    | .error e => .error e
    | .ok m =>
      match instantiateModels w rest with
      | .error e => .error e
      | .ok ms => .ok (m :: ms)

/-- The model-instantiation step of `process`. -/
def modelsStep (w : World) (c : Configuration) : Except PyErr Configuration :=
  if c.model_configs = [] then .error (.valueError "No models specified!")
  else
    match instantiateModels w c.model_configs with
    | .error e => .error e
    | .ok ms => .ok { c with models := ms }

/-- `Configuration.assert_compare_equal`: return the first value when both
match, raise `ValueError` otherwise. -/
def assert_compare_equal (one other : Finset String) : Except PyErr (Finset String) :=
  if one ≠ other then .error (.valueError "Values were expected to match.")
  else .ok one

/-- `Configuration.valid_overlaps`: the three overlap policies, keyed by
their configuration names. -/
def valid_overlaps :
    List (String × (Finset String → Finset String → Except PyErr (Finset String))) :=
  [("union", fun a b => .ok (a ∪ b)),
   ("intersection", fun a b => .ok (a ∩ b)),
   ("error", assert_compare_equal)]

/-- The combination loop of `process`: each model contributes its data keys,
intersected with `lang_filter` when that filter is nonempty, combined into
the accumulator by the overlap resolver. -/
def combineFold (resolver : Finset String → Finset String → Except PyErr (Finset String))
    (lang_filter : Finset String) :
    Finset String → List (Finset String) → Except PyErr (Finset String)
  | acc, [] => .ok acc
  | acc, d :: ds =>
    match resolver acc (if lang_filter = ∅ then d else d ∩ lang_filter) with
    | .error e => .error e
    | .ok acc2 => combineFold resolver lang_filter acc2 ds

/-- Finalising the language list: start from the first model's data keys and
fold every model's (filtered) keys into it under the overlap policy. -/
def combineLanguages (overlap : String) (lang_filter : Finset String)
    (datasets : List (Finset String)) : Except PyErr (Finset String) :=
  match datasets with
  | [] => .error .indexError
  | d0 :: _ =>
    match valid_overlaps.lookup overlap with
    | none => .error .keyError
    | some resolver => combineFold resolver lang_filter d0 datasets

/-- The final step of `process`: combine the language sets, fail on an empty
result, sort the survivors, record the info message and mark the
configuration processed. -/
def languagesStep (c : Configuration) : Except PyErr Configuration :=
  match combineLanguages c.overlap c.lang_filter (c.models.map Model.dataKeys) with
  | .error e => .error e
  | .ok s =>
    if s = ∅ then .error (.valueError "No languages specified!")
    else .ok { c with
      languages := pySortedFinset s,
      messages := c.messages ++
        ["[INFO] " ++ toString s.card ++ " languages included in analysis."],
      processed := true }

/-- `Configuration.process`: the single resolution pass, in source order.
The package-notice messages contributed by the model classes (whose code
lives outside this repository slice) are not tracked. -/
def Configuration.process (w : World) (c : Configuration) : Except PyErr Configuration :=
  match familiesStep w { c with
      messages := monophylyMessages c,
      log_every := deriveLogEvery c.log_every c.chainlength } with
  | .error e => .error e
  | .ok c2 =>
    match modelsStep w (stdinStep (classificationStep w (startingTreeStep w c2))) with
    | .error e => .error e
    | .ok c4 => languagesStep c4

/-! ## Data readers (`fileio/datareaders.py`) -/

/-- A CSV row as delivered by the dict reader: column name to cell value. -/
abbrev Row := List (String × String)

/-- `_language_column_names`. -/
def languageColumnNames : List String :=
  ["iso", "iso_code", "glotto", "glottocode", "language", "language_id", "lang", "lang_id"]

/-- The language-column auto-detection loop of `load_beastling_data`. -/
def findLangColumn (fieldnames : List String) : Option String :=
  fieldnames.find? (fun candidate => languageColumnNames.contains (pyLower candidate))

/-- `lang_column` resolution: an unset (or empty) explicit column falls back
to auto-detection. -/
def resolveLangColumn (fieldnames : List String) (lang_column : Option String) :
    Option String :=
  match lang_column with
  | some c => if c = "" then findLangColumn fieldnames else some c
  | none => findLangColumn fieldnames

/-- The row loop of `load_beastling_data`: a row whose language identifier is
already a key of the accumulated data raises the duplicate `ValueError`. -/
def loadBeastlingAux (c filename : String) :
    List Row → List (String × Row) → Except PyErr (List (String × Row))
  | [], data => .ok data
  | row :: rest, data =>
    match row.lookup c with
    | none => .error .keyError
    | some v =>
      if (data.lookup v).isSome then
        .error (.valueError
          ("Duplicated language identifier " ++ v ++ " found in data file " ++ filename))
      else loadBeastlingAux c filename rest (data ++ [(v, row)])

/-- `load_beastling_data`. -/
def load_beastling_data (fieldnames : List String) (rows : List Row)
    (lang_column : Option String) (filename : String) :
    Except PyErr (List (String × Row)) :=
  match resolveLangColumn fieldnames lang_column with
  | none => .error (.valueError ("Cold not find language column in data file " ++ filename))
  | some c =>
    if fieldnames.contains c then loadBeastlingAux c filename rows []
    else .error (.valueError ("Cold not find language column in data file " ++ filename))

/-- Python dict assignment `d[k] = v` on a row: overwrite in place or
append. -/
def rowStore (r : Row) (k v : String) : Row :=
  if (r.lookup k).isSome then r.map (fun q => if q.1 = k then (k, v) else q)
  else r ++ [(k, v)]

/-- `data[lang][feature] = value` with defaulted nesting: create the inner
row on a first-seen language, then store the feature value. -/
def cldfStore (data : List (String × Row)) (lang feat val : String) :
    List (String × Row) :=
  let data2 := if (data.lookup lang).isSome then data else data ++ [(lang, [])]
  data2.map (fun p => if p.1 = lang then (p.1, rowStore p.2 feat val) else p)

/-- The row loop of `load_cldf_data`: rows sharing a `Language_ID` are merged
feature by feature, never rejected. -/
def loadCldfAux (fc : String) :
    List Row → List (String × Row) → Except PyErr (List (String × Row))
  | [], data => .ok data
  | row :: rest, data =>
    match row.lookup "Language_ID", row.lookup fc, row.lookup "Value" with
    | some lang, some feat, some val => loadCldfAux fc rest (cldfStore data lang feat val)
    | _, _, _ => .error .keyError

/-- `load_cldf_data`. -/
def load_cldf_data (fieldnames : List String) (rows : List Row) :
    Except PyErr (List (String × Row)) :=
  let fc := if fieldnames.contains "Feature_ID" then "Feature_ID" else "Parameter_ID"
  loadCldfAux fc rows []

/-! ## Command-line exit codes (`cli.py`) -/

/-- The arguments of a `generate` invocation that determine its exit
status. -/
structure GenArgs where
  config : List String
  output : Option String
  overwrite : Bool
  deriving Repr, DecidableEq

/-- The world a `generate` invocation runs against: the set of existing
files, whether configuration parsing, processing and XML building succeed,
and the default output filename derived from the basename. -/
structure GenWorld where
  existing : List String
  parseOk : Bool
  processOk : Bool
  buildOk : Bool
  defaultOut : String
  deriving Repr, DecidableEq

/-- `do_generate` followed by `main`'s final `exit(status=0)`: the exit
status of a generate invocation (file writing itself assumed to succeed). -/
def do_generate (a : GenArgs) (w : GenWorld) : Nat :=
  if a.config.any (fun conf => !w.existing.contains conf) then 1
  else if !w.parseOk then 2
  else
    let outputFilename := a.output.getD w.defaultOut
    if w.existing.contains outputFilename ∧ a.overwrite = false then 4
    else if !w.processOk then 2
    else if !w.buildOk then 3
    else 0

/-- The arguments of an `extract` invocation that determine its exit
status. -/
structure ExtractArgs where
  config : List String
  overwrite : Bool
  deriving Repr, DecidableEq

/-- The world an `extract` invocation runs against. -/
structure ExtractWorld where
  existing : List String
  extractOk : Bool
  deriving Repr, DecidableEq

/-- `do_extract` followed by `main`'s final `exit(status=0)`: the exit status
of an extract invocation. -/
def do_extract (a : ExtractArgs) (w : ExtractWorld) : Nat :=
  if a.config.length ≠ 1 then 1
  else if !w.existing.contains (a.config.head?.getD "") then 2
  else if !w.extractOk then 3
  else 0

/-! ## Concrete inputs used by witnesses and counterexamples -/

/-- A request sequence with a repeated label: the second request overwrites
the registry entry of the first. -/
def evictionReqs : List TaxonSetReq :=
  [⟨"L", ["a"], false⟩, ⟨"L", ["b"], false⟩, ⟨"M", ["a"], false⟩]

/-- A world with one two-taxon data source. -/
def demoWorld : World :=
  { files := [], classifications := [], dataKeys := [("data.csv", ["lang2", "lang1"])] }

/-- A fresh configuration over one mk model reading that source. -/
def demoConfig : Configuration :=
  { processed := false, messages := [], chainlength := 10000000, log_every := 0,
    families := .inl "*", overlap := "union", starting_tree := "",
    monophyly := false, stdin_data := false,
    model_configs := [⟨"m", some "mk", some "data.csv"⟩],
    classifications := [], lang_filter := ∅, models := [], languages := [] }

/-- The same configuration with a negative chain length. -/
def negChainConfig : Configuration :=
  { demoConfig with chainlength := -5000 }

/-- A processed builder-side configuration with one model and one clock, each
without a back-reference. -/
def demoBuilderConfig : BuilderConfig :=
  { processed := true, languages := ["x", "y"], monophyly := false,
    starting_tree := "", sample_topology := true, sample_branch_lengths := true,
    all_models := [⟨"m", none⟩], clocks := [⟨"default", none⟩] }

/-- A configuration with two models whose data sets are disjoint, under the
intersection policy. -/
def disjointConfig : Configuration :=
  { demoConfig with
    overlap := "intersection",
    models := [⟨"a", "mk", (["x"] : List String).toFinset⟩,
               ⟨"b", "mk", (["y"] : List String).toFinset⟩] }

/-- A normal calibration on the clade taxa x, y. -/
def demoNormalCal : Calibration :=
  { dist := "normal", param1 := "3.0", param2 := "1.0", originate := false,
    langs := ["x", "y"] }

/-- Two wide-format rows carrying the same language identifier. -/
def dupBeastlingRows : List Row :=
  [[("Language", "x"), ("f1", "1")], [("Language", "x"), ("f1", "2")]]

/-- Two long-format CLDF rows carrying the same language identifier with two
different features. -/
def dupCldfRows : List Row :=
  [[("Language_ID", "x"), ("Feature_ID", "f1"), ("Value", "1")],
   [("Language_ID", "x"), ("Feature_ID", "f2"), ("Value", "2")]]

/-! # Theorems -/

lemma pySortedFinset_sorted (s : Finset String) :
    (pySortedFinset s).Sorted (· ≤ ·) := by
  rw [show pySortedFinset s = Quotient.lift pySorted _ s.val from rfl]
  induction s.val using Quot.inductionOn with
  | h l => exact @List.sorted_insertionSort String (· ≤ ·) decStrLe _ _ l

lemma pySortedFinset_length (s : Finset String) :
    (pySortedFinset s).length = s.card := by
  rw [show pySortedFinset s = Quotient.lift pySorted _ s.val from rfl,
    show s.card = Multiset.card s.val from rfl]
  induction s.val using Quot.inductionOn with
  | h l => exact (@List.perm_insertionSort String (· ≤ ·) decStrLe l).length_eq

/-! ## C1 — taxon-set deduplication -/

lemma store_of_not_mem (reg : Registry) (k : String) (v : Finset String)
    (h : k ∉ reg.map Prod.fst) : reg.store k v = reg ++ [(k, v)] := by
  have hany : reg.any (fun p => p.1 == k) = false := by
    rw [List.any_eq_false]
    intro p hp hpk
    exact h (List.mem_map.2 ⟨p, hp, by simpa using hpk⟩)
  unfold Registry.store
  rw [hany]
  simp

lemma store_keys_of_not_mem (reg : Registry) (k : String) (v : Finset String)
    (h : k ∉ reg.map Prod.fst) :
    (reg.store k v).map Prod.fst = reg.map Prod.fst ++ [k] := by
  rw [store_of_not_mem reg k v h, List.map_append]
  rfl

lemma runTaxonSets_persist (reqs : List TaxonSetReq) :
    ∀ (reg : Registry),
      (reqs.map TaxonSetReq.label).Nodup →
      (∀ k ∈ reg.map Prod.fst, k ∉ reqs.map TaxonSetReq.label) →
      ∀ p ∈ reg, p ∈ (runTaxonSets reg reqs).2 := by
  induction reqs with
  | nil => intro reg _ _ p hp; exact hp
  | cons r rs ih =>
    intro reg hnd hdisj p hp
    simp only [runTaxonSets]
    cases hfind : (reg.find? fun q => decide (q.2 = r.langs.toFinset)) with
    | some q =>
      simp only [addTaxonSet, hfind]
      exact ih reg (List.Nodup.of_cons hnd)
        (fun k hk => fun hmem => hdisj k hk (List.mem_cons_of_mem _ hmem)) p hp
    | none =>
      simp only [addTaxonSet, hfind]
      have hlab : r.label ∉ reg.map Prod.fst := by
        intro hmem
        exact hdisj r.label hmem (by simp)
      have hkeys := store_keys_of_not_mem reg r.label r.langs.toFinset hlab
      refine ih _ (List.Nodup.of_cons hnd) ?_ p ?_
      · intro k hk
        rw [hkeys] at hk
        rcases List.mem_append.1 hk with hk | hk
        · exact fun hmem => hdisj k hk (List.mem_cons_of_mem _ hmem)
        · simp only [List.mem_singleton] at hk
          subst hk
          simp only [List.map_cons] at hnd
          exact (List.nodup_cons.1 hnd).1
      · rw [store_of_not_mem reg r.label _ hlab]
        exact List.mem_append_left _ hp

lemma runTaxonSets_def_mem_registry (reqs : List TaxonSetReq) :
    ∀ (reg : Registry),
      (reqs.map TaxonSetReq.label).Nodup →
      (∀ k ∈ reg.map Prod.fst, k ∉ reqs.map TaxonSetReq.label) →
      ∀ q n, (q, n) ∈ reqs.zip (runTaxonSets reg reqs).1 →
        n = taxonSetNode q.label q.langs q.defineTaxa →
        (q.label, q.langs.toFinset) ∈ (runTaxonSets reg reqs).2 := by
  induction reqs with
  | nil => intro reg _ _ q n hmem _; simp [runTaxonSets] at hmem
  | cons r rs ih =>
    intro reg hnd hdisj q n hmem hdef
    simp only [runTaxonSets] at hmem ⊢
    rw [List.zip_cons_cons] at hmem
    have hdisj' : ∀ k ∈ reg.map Prod.fst, k ∉ rs.map TaxonSetReq.label :=
      fun k hk hmem' => hdisj k hk (List.mem_cons_of_mem _ hmem')
    cases hfind : (reg.find? fun p => decide (p.2 = r.langs.toFinset)) with
    | some p =>
      simp only [addTaxonSet, hfind] at hmem ⊢
      rcases List.mem_cons.1 hmem with hhd | htl
      · exfalso
        have : refNode p.1 = taxonSetNode q.label q.langs q.defineTaxa := by
          have := congrArg Prod.snd hhd
          simp at this
          rw [← this, hdef]
        simp [refNode, taxonSetNode] at this
      · exact ih reg (List.Nodup.of_cons hnd) hdisj' q n htl hdef
    | none =>
      simp only [addTaxonSet, hfind] at hmem ⊢
      have hlab : r.label ∉ reg.map Prod.fst :=
        fun hmem' => hdisj r.label hmem' (by simp)
      have hkeys := store_keys_of_not_mem reg r.label r.langs.toFinset hlab
      have hdisj2 : ∀ k ∈ (reg.store r.label r.langs.toFinset).map Prod.fst,
          k ∉ rs.map TaxonSetReq.label := by
        intro k hk
        rw [hkeys] at hk
        rcases List.mem_append.1 hk with hk | hk
        · exact hdisj' k hk
        · simp only [List.mem_singleton] at hk
          subst hk
          simp only [List.map_cons] at hnd
          exact (List.nodup_cons.1 hnd).1
      rcases List.mem_cons.1 hmem with hhd | htl
      · have hq : q = r := by
          have := congrArg Prod.fst hhd
          simpa using this
        subst hq
        refine runTaxonSets_persist rs _ (List.Nodup.of_cons hnd) hdisj2 _ ?_
        rw [store_of_not_mem reg q.label _ hlab]
        exact List.mem_append_right _ (by simp)
      · exact ih _ (List.Nodup.of_cons hnd) hdisj2 q n htl hdef

lemma runTaxonSets_registry_src (reqs : List TaxonSetReq) :
    ∀ (reg : Registry),
      (reqs.map TaxonSetReq.label).Nodup →
      (∀ k ∈ reg.map Prod.fst, k ∉ reqs.map TaxonSetReq.label) →
      ∀ p ∈ (runTaxonSets reg reqs).2,
        p ∈ reg ∨ ∃ q, (q, taxonSetNode q.label q.langs q.defineTaxa) ∈
            reqs.zip (runTaxonSets reg reqs).1 ∧
          q.label = p.1 ∧ q.langs.toFinset = p.2 := by
  induction reqs with
  | nil => intro reg _ _ p hp; exact Or.inl hp
  | cons r rs ih =>
    intro reg hnd hdisj p hp
    simp only [runTaxonSets] at hp ⊢
    rw [List.zip_cons_cons]
    have hdisj' : ∀ k ∈ reg.map Prod.fst, k ∉ rs.map TaxonSetReq.label :=
      fun k hk hmem' => hdisj k hk (List.mem_cons_of_mem _ hmem')
    cases hfind : (reg.find? fun x => decide (x.2 = r.langs.toFinset)) with
    | some x =>
      simp only [addTaxonSet, hfind] at hp ⊢
      rcases ih reg (List.Nodup.of_cons hnd) hdisj' p hp with hl | ⟨q, hq, h1, h2⟩
      · exact Or.inl hl
      · exact Or.inr ⟨q, List.mem_cons_of_mem _ hq, h1, h2⟩
    | none =>
      simp only [addTaxonSet, hfind] at hp ⊢
      have hlab : r.label ∉ reg.map Prod.fst :=
        fun hmem' => hdisj r.label hmem' (by simp)
      have hkeys := store_keys_of_not_mem reg r.label r.langs.toFinset hlab
      have hdisj2 : ∀ k ∈ (reg.store r.label r.langs.toFinset).map Prod.fst,
          k ∉ rs.map TaxonSetReq.label := by
        intro k hk
        rw [hkeys] at hk
        rcases List.mem_append.1 hk with hk | hk
        · exact hdisj' k hk
        · simp only [List.mem_singleton] at hk
          subst hk
          simp only [List.map_cons] at hnd
          exact (List.nodup_cons.1 hnd).1
      rcases ih _ (List.Nodup.of_cons hnd) hdisj2 p hp with hl | ⟨q, hq, h1, h2⟩
      · rw [store_of_not_mem reg r.label _ hlab] at hl
        rcases List.mem_append.1 hl with hl | hl
        · exact Or.inl hl
        · simp only [List.mem_singleton] at hl
          subst hl
          exact Or.inr ⟨r, by simp, rfl, rfl⟩
      · exact Or.inr ⟨q, List.mem_cons_of_mem _ hq, h1, h2⟩

/-- C1 (amended): provided the requested identifiers are pairwise distinct
(as they are for distinct clade labels), a request whose taxon membership is
set-equal to the membership of a previously emitted taxon-set definition
produces only a reference to that definition's identifier and registers no
new definition; the registry entry found always stems from a previously
emitted full definition with the same membership. -/
theorem taxon_set_dedup
    (pre : List TaxonSetReq) (r : TaxonSetReq)
    (hnd : ((pre ++ [r]).map TaxonSetReq.label).Nodup)
    (q : TaxonSetReq)
    (hq : (q, taxonSetNode q.label q.langs q.defineTaxa) ∈
        pre.zip (runTaxonSets [] pre).1)
    (hmem : q.langs.toFinset = r.langs.toFinset) :
    ∃ l, (addTaxonSet (runTaxonSets [] pre).2 r).1 = refNode l ∧
      (addTaxonSet (runTaxonSets [] pre).2 r).2 = (runTaxonSets [] pre).2 ∧
      ∃ q', (q', taxonSetNode q'.label q'.langs q'.defineTaxa) ∈
          pre.zip (runTaxonSets [] pre).1 ∧
        q'.label = l ∧ q'.langs.toFinset = r.langs.toFinset := by
  have hndpre : (pre.map TaxonSetReq.label).Nodup := by
    rw [List.map_append] at hnd
    exact (List.nodup_append.1 hnd).1
  have hdisj0 : ∀ k ∈ ([] : Registry).map Prod.fst,
      k ∉ pre.map TaxonSetReq.label := by simp
  have hreg : (q.label, q.langs.toFinset) ∈ (runTaxonSets [] pre).2 :=
    runTaxonSets_def_mem_registry pre [] hndpre hdisj0 q _ hq rfl
  have hfind : ((runTaxonSets [] pre).2.find? fun p =>
      decide (p.2 = r.langs.toFinset)).isSome := by
    rw [List.find?_isSome]
    exact ⟨(q.label, q.langs.toFinset), hreg, by simp [hmem]⟩
  obtain ⟨p', hp'⟩ := Option.isSome_iff_exists.1 hfind
  have hp'mem : p' ∈ (runTaxonSets [] pre).2 := List.mem_of_find?_eq_some hp'
  have hp'set : p'.2 = r.langs.toFinset := by
    have := List.find?_some hp'
    simpa using this
  rcases runTaxonSets_registry_src pre [] hndpre hdisj0 p' hp'mem with
    hl | ⟨q', hq', h1, h2⟩
  · simp at hl
  · exact ⟨p'.1, by simp [addTaxonSet, hp'], by simp [addTaxonSet, hp'],
      q', hq', h1, h2.trans hp'set⟩

/-- C1 witness: two calibrations with distinct clade labels `c1`, `c2` and
set-equal taxa x,y produce one full definition and one reference. -/
theorem taxon_set_dedup_witness :
    ((([⟨"c1", ["x", "y"], false⟩] : List TaxonSetReq) ++
        ([⟨"c2", ["y", "x"], false⟩] : List TaxonSetReq)).map TaxonSetReq.label).Nodup ∧
    (⟨"c1", ["x", "y"], false⟩ : TaxonSetReq).langs.toFinset =
      (⟨"c2", ["y", "x"], false⟩ : TaxonSetReq).langs.toFinset ∧
    ∃ l, (addTaxonSet (runTaxonSets [] [⟨"c1", ["x", "y"], false⟩]).2
        ⟨"c2", ["y", "x"], false⟩).1 = refNode l ∧
      (addTaxonSet (runTaxonSets [] [⟨"c1", ["x", "y"], false⟩]).2
        ⟨"c2", ["y", "x"], false⟩).2 = (runTaxonSets [] [⟨"c1", ["x", "y"], false⟩]).2 ∧
      ∃ q', (q', taxonSetNode q'.label q'.langs q'.defineTaxa) ∈
          ([⟨"c1", ["x", "y"], false⟩] : List TaxonSetReq).zip
            (runTaxonSets [] [⟨"c1", ["x", "y"], false⟩]).1 ∧
        q'.label = l ∧
        q'.langs.toFinset = (⟨"c2", ["y", "x"], false⟩ : TaxonSetReq).langs.toFinset := by
  refine ⟨by decide, by decide, ?_⟩
  exact taxon_set_dedup [⟨"c1", ["x", "y"], false⟩] ⟨"c2", ["y", "x"], false⟩
    (by decide) ⟨"c1", ["x", "y"], false⟩ (List.Mem.head _) (by decide)

/-- C1 counterexample: after the requests (L,[a]) and (L,[b]) — the second of
which overwrites the registry key L — the request (M,[a]), whose membership
set-equals the previously emitted set (L,[a]), is emitted as a third full
definition (not a reference) and adds a new registry entry. -/
theorem taxon_set_dedup_cex :
    (runTaxonSets [] evictionReqs).1 =
      [taxonSetNode "L" ["a"] false, taxonSetNode "L" ["b"] false,
       taxonSetNode "M" ["a"] false] ∧
    (runTaxonSets [] evictionReqs).2 =
      [("L", (["b"] : List String).toFinset), ("M", (["a"] : List String).toFinset)] ∧
    (taxonSetNode "M" ["a"] false).isRefNode = false :=
  ⟨rfl, rfl, rfl⟩

/-! ## C2 to C5 -/

/-- C2: a uniform calibration emits lower/upper bound attributes on the
distribution element and no shape-parameter children; a normal calibration
emits exactly the two shape-parameter children mean and sigma; a lognormal
calibration emits exactly M and S. -/
theorem calibration_param_mapping
    (reg : Registry) (clade : String) (cal : Calibration) (node : XmlNode) (reg2 : Registry)
    (h : addCalibration reg clade cal = .ok (node, reg2)) :
    (cal.dist = "uniform" → ∃ ts d, node.children = [ts, d] ∧ d.tag = "Uniform" ∧
      d.attr "lower" = some cal.param1 ∧ d.attr "upper" = some cal.param2 ∧
      d.children = []) ∧
    (cal.dist = "normal" → ∃ ts d, node.children = [ts, d] ∧ d.tag = "Normal" ∧
      d.attr "lower" = none ∧ d.attr "upper" = none ∧
      d.children.map (fun x => x.attr "name") = [some "mean", some "sigma"]) ∧
    (cal.dist = "lognormal" → ∃ ts d, node.children = [ts, d] ∧ d.tag = "LogNormal" ∧
      d.attr "lower" = none ∧ d.attr "upper" = none ∧
      d.children.map (fun x => x.attr "name") = [some "M", some "S"]) := by
  refine ⟨?_, ?_, ?_⟩ <;> intro hdist <;>
    · rw [addCalibration, hdist] at h
      simp only [distTypeTable, List.lookup] at h
      simp at h
      refine ⟨(addTaxonSet reg ⟨if clade.endsWith "_originate" then
        clade.dropRight "_originate".length else clade, cal.langs, false⟩).1, ?_⟩
      rw [← h.1]
      simp [XmlNode.children, XmlNode.tag, XmlNode.attr]


/-- C2 witness: the mapping evaluated on a concrete normal calibration. -/
theorem calibration_param_mapping_witness :
    demoNormalCal.dist = "normal" ∧
    ∃ node reg2, addCalibration [] "c" demoNormalCal = .ok (node, reg2) ∧
      ∃ ts d, node.children = [ts, d] ∧ d.tag = "Normal" ∧ d.attr "lower" = none ∧
        d.attr "upper" = none ∧
        d.children.map (fun x => x.attr "name") = [some "mean", some "sigma"] := by
  have h : ∃ node reg2, addCalibration [] "c" demoNormalCal = .ok (node, reg2) :=
    ⟨_, _, rfl⟩
  obtain ⟨node, reg2, h⟩ := h
  exact ⟨rfl, node, reg2, h,
    (calibration_param_mapping [] "c" demoNormalCal node reg2 h).2.1 rfl⟩

/-- C3: the tree-initializer decision table, first match wins: an explicit
starting tree gives the parse-fixed-tree initializer; otherwise monophyly
constraints with at least 3 taxa give the constrained-random-tree; otherwise
a hard (uniform) calibration bound gives the simple-random-tree; otherwise
the plain random-tree. -/
theorem tree_initializer_table (cfg : BXConfig) :
    (cfg.starting_tree ≠ "" → addInit cfg = parseTreeInit cfg.starting_tree) ∧
    (cfg.starting_tree = "" → cfg.monophyly = true → 3 ≤ cfg.languages.length →
      addInit cfg = constrainedRandomTreeInit) ∧
    (cfg.starting_tree = "" → ¬(cfg.monophyly = true ∧ 3 ≤ cfg.languages.length) →
      (∃ p ∈ cfg.calibrations, p.2.dist = "uniform") →
      addInit cfg = simpleRandomTreeInit) ∧
    (cfg.starting_tree = "" → ¬(cfg.monophyly = true ∧ 3 ≤ cfg.languages.length) →
      (∀ p ∈ cfg.calibrations, p.2.dist ≠ "uniform") →
      addInit cfg = randomTreeInit) := by
  refine ⟨?_, ?_, ?_, ?_⟩
  · intro hst
    rw [addInit, if_pos hst]
  · intro hst hmono hlen
    rw [addInit, if_neg (fun hne => hne hst), if_pos ⟨hmono, hlen⟩]
  · intro hst hnot hex
    have hnot2 : ¬(cfg.monophyly = true ∧ 2 < cfg.languages.length) := hnot
    rw [addInit, if_neg (fun hne => hne hst), if_neg hnot2, if_pos ?_]
    rw [List.any_eq_true]
    obtain ⟨p, hp, hd⟩ := hex
    exact ⟨p, hp, by simp [hd]⟩
  · intro hst hnot hall
    have hnot2 : ¬(cfg.monophyly = true ∧ 2 < cfg.languages.length) := hnot
    rw [addInit, if_neg (fun hne => hne hst), if_neg hnot2, if_neg ?_]
    rw [List.any_eq_true]
    rintro ⟨p, hp, hd⟩
    exact hall p hp (by simpa using hd)

/-- C3 witness: the constrained-random-tree case at a concrete
configuration. -/
theorem tree_initializer_table_witness :
    (⟨"", true, ["a", "b", "c"], []⟩ : BXConfig).starting_tree = "" ∧
    (⟨"", true, ["a", "b", "c"], []⟩ : BXConfig).monophyly = true ∧
    3 ≤ (⟨"", true, ["a", "b", "c"], []⟩ : BXConfig).languages.length ∧
    addInit ⟨"", true, ["a", "b", "c"], []⟩ = constrainedRandomTreeInit :=
  ⟨rfl, rfl, by decide,
    (tree_initializer_table ⟨"", true, ["a", "b", "c"], []⟩).2.1 rfl rfl (by decide)⟩

/-- C5 (amended): for a processed configuration, building the document
leaves the scalar and collection fields of the configuration (languages,
calibrations, flags) unchanged, but the builder injects a back-reference to
itself into every model and every clock object of the configuration. -/
theorem builder_frame (c : BuilderConfig) (_h : c.processed = true) :
    (beastXmlInitConfig c).processed = c.processed ∧
    (beastXmlInitConfig c).languages = c.languages ∧
    (beastXmlInitConfig c).monophyly = c.monophyly ∧
    (beastXmlInitConfig c).starting_tree = c.starting_tree ∧
    (beastXmlInitConfig c).sample_topology = c.sample_topology ∧
    (beastXmlInitConfig c).sample_branch_lengths = c.sample_branch_lengths ∧
    (beastXmlInitConfig c).all_models =
      c.all_models.map (fun m => { m with beastxml := some () }) ∧
    (beastXmlInitConfig c).clocks =
      c.clocks.map (fun k => { k with beastxml := some () }) :=
  ⟨rfl, rfl, rfl, rfl, rfl, rfl, rfl, rfl⟩

/-- C5 witness: the frame property at a concrete processed configuration. -/
theorem builder_frame_witness :
    demoBuilderConfig.processed = true ∧
    (beastXmlInitConfig demoBuilderConfig).languages = demoBuilderConfig.languages ∧
    (beastXmlInitConfig demoBuilderConfig).all_models =
      demoBuilderConfig.all_models.map (fun m => { m with beastxml := some () }) :=
  ⟨rfl, (builder_frame demoBuilderConfig rfl).2.1,
    (builder_frame demoBuilderConfig rfl).2.2.2.2.2.2.1⟩

/-- C5 counterexample: on a processed configuration, the builder does mutate
configuration state: every model and clock object acquires a beastxml
back-reference, so the models and clocks fields are not equal to their
values from before assembly began. -/
theorem builder_mutates_cex :
    demoBuilderConfig.processed = true ∧
    (beastXmlInitConfig demoBuilderConfig).all_models ≠ demoBuilderConfig.all_models ∧
    (beastXmlInitConfig demoBuilderConfig).clocks ≠ demoBuilderConfig.clocks :=
  ⟨rfl, by decide, by decide⟩

/-- C4 (amended): for datasets Sa, Sb and no family filter, the policy named
union yields Sa as union Sb, the policy named intersection yields Sa
intersect Sb, and the third policy — named error in the code, not equality —
yields Sa when the sets agree and raises ValueError otherwise. -/
theorem overlap_policies (Sa Sb : Finset String) :
    combineLanguages "union" ∅ [Sa, Sb] = .ok (Sa ∪ Sb) ∧
    combineLanguages "intersection" ∅ [Sa, Sb] = .ok (Sa ∩ Sb) ∧
    (Sa = Sb → combineLanguages "error" ∅ [Sa, Sb] = .ok Sa) ∧
    (Sa ≠ Sb → combineLanguages "error" ∅ [Sa, Sb] =
      .error (.valueError "Values were expected to match.")) := by
  have hu : valid_overlaps.lookup "union" = some (fun a b => .ok (a ∪ b)) := rfl
  have hi : valid_overlaps.lookup "intersection" = some (fun a b => .ok (a ∩ b)) := rfl
  have he : valid_overlaps.lookup "error" = some assert_compare_equal := rfl
  refine ⟨?_, ?_, ?_, ?_⟩
  · simp [combineLanguages, hu, combineFold, Finset.union_self]
  · simp [combineLanguages, hi, combineFold, Finset.inter_self]
  · intro hEq
    subst hEq
    simp [combineLanguages, he, combineFold, assert_compare_equal]
  · intro hne
    simp [combineLanguages, he, combineFold, assert_compare_equal, hne]

/-- C4 witness: the policies evaluated at the concrete sets x and y. -/
theorem overlap_policies_witness :
    combineLanguages "union" ∅
      [(["x"] : List String).toFinset, (["y"] : List String).toFinset] =
      .ok ((["x"] : List String).toFinset ∪ (["y"] : List String).toFinset) ∧
    (["x"] : List String).toFinset ≠ (["y"] : List String).toFinset ∧
    combineLanguages "error" ∅
      [(["x"] : List String).toFinset, (["y"] : List String).toFinset] =
      .error (.valueError "Values were expected to match.") :=
  ⟨(overlap_policies (["x"] : List String).toFinset (["y"] : List String).toFinset).1,
   by decide,
   (overlap_policies (["x"] : List String).toFinset
      (["y"] : List String).toFinset).2.2.2 (by decide)⟩

/-- C4 counterexample: there is no policy named equality: looking it up
fails, and resolving under it raises KeyError instead of returning Sa. -/
theorem overlap_equality_missing_cex :
    valid_overlaps.lookup "equality" = none ∧
    combineLanguages "equality" ∅
      [(["x"] : List String).toFinset, (["x"] : List String).toFinset] =
      .error .keyError :=
  ⟨rfl, rfl⟩

/-! ## C6 — process is not idempotent -/

lemma familiesStep_ok (w : World) (c c2 : Configuration)
    (h : familiesStep w c = .ok c2) :
    (∃ l, c2.families = .inr l) ∧ c2.log_every = c.log_every ∧
      c2.languages = c.languages := by
  unfold familiesStep at h
  split at h
  · cases h
  · split at h <;> (cases h; exact ⟨⟨_, rfl⟩, rfl, rfl⟩)

lemma startingTreeStep_fields (w : World) (c : Configuration) :
    (startingTreeStep w c).families = c.families ∧
    (startingTreeStep w c).log_every = c.log_every ∧
    (startingTreeStep w c).languages = c.languages := by
  unfold startingTreeStep
  cases w.files.lookup c.starting_tree <;> exact ⟨rfl, rfl, rfl⟩

lemma stdinStep_fields (c : Configuration) :
    (stdinStep c).families = c.families ∧
    (stdinStep c).log_every = c.log_every ∧
    (stdinStep c).languages = c.languages := by
  unfold stdinStep
  by_cases h : c.stdin_data <;> simp [h]

lemma modelsStep_ok (w : World) (c c2 : Configuration)
    (h : modelsStep w c = .ok c2) :
    c2.families = c.families ∧ c2.log_every = c.log_every ∧
      c2.languages = c.languages := by
  unfold modelsStep at h
  split at h
  · cases h
  · split at h
    · cases h
    · cases h; exact ⟨rfl, rfl, rfl⟩

lemma languagesStep_ok (c c2 : Configuration)
    (h : languagesStep c = .ok c2) :
    c2.families = c.families ∧ c2.log_every = c.log_every ∧
      ∃ s : Finset String, s ≠ ∅ ∧ c2.languages = pySortedFinset s := by
  unfold languagesStep at h
  split at h
  · cases h
  · split at h
    · cases h
    · cases h
      rename_i s hcomb hs
      exact ⟨rfl, rfl, s, hs, rfl⟩

lemma process_ok_shape (w : World) (c c2 : Configuration)
    (h : Configuration.process w c = .ok c2) :
    (∃ l, c2.families = .inr l) ∧
    c2.log_every = deriveLogEvery c.log_every c.chainlength ∧
    ∃ s : Finset String, s ≠ ∅ ∧ c2.languages = pySortedFinset s := by
  unfold Configuration.process at h
  split at h
  · cases h
  · rename_i cf hf
    split at h
    · cases h
    · rename_i cm hm
      have h1 := familiesStep_ok _ _ _ hf
      have h2 := startingTreeStep_fields w cf
      have h3 := stdinStep_fields (classificationStep w (startingTreeStep w cf))
      have h4 := modelsStep_ok _ _ _ hm
      have h5 := languagesStep_ok _ _ h
      refine ⟨?_, ?_, h5.2.2⟩
      · obtain ⟨l, hl⟩ := h1.1
        refine ⟨l, ?_⟩
        rw [h5.1, h4.1]
        have hcl : (classificationStep w (startingTreeStep w cf)).families =
            (startingTreeStep w cf).families := rfl
        rw [h3.1, hcl, h2.1, hl]
      · rw [h5.2.1, h4.2.1]
        have hcl : (classificationStep w (startingTreeStep w cf)).log_every =
            (startingTreeStep w cf).log_every := rfl
        rw [h3.2.1, hcl, h2.2.1, h1.2.1]

/-- C6 (amended): resolving twice never succeeds.  A successful resolution
pass returns a sorted language sequence, but it also replaces the families
string by a list, so running `process` a second time on the resulting
configuration object always raises `TypeError` in the families handling
instead of succeeding with the same sequence. -/
theorem process_not_idempotent (w : World) (c c2 : Configuration)
    (h : Configuration.process w c = .ok c2) :
    Configuration.process w c2 = .error .typeError ∧
    c2.languages.Sorted (· ≤ ·) := by
  obtain ⟨⟨l, hl⟩, _, s, hs, hlang⟩ := process_ok_shape w c c2 h
  constructor
  · have hfam : familiesStep w { c2 with
        messages := monophylyMessages c2,
        log_every := deriveLogEvery c2.log_every c2.chainlength } = .error .typeError := by
      unfold familiesStep
      have : ({ c2 with
          messages := monophylyMessages c2,
          log_every := deriveLogEvery c2.log_every c2.chainlength } : Configuration).families
          = c2.families := rfl
      rw [this, hl]
    unfold Configuration.process
    rw [hfam]
  · rw [hlang]
    exact pySortedFinset_sorted s

/-! ## C6, C9, C10 — witnesses, counterexamples, invariants -/

/-- C6 witness: the double resolution evaluated on a concrete world and
configuration. -/
theorem process_not_idempotent_witness :
    ∃ c2, Configuration.process demoWorld demoConfig = .ok c2 ∧
      Configuration.process demoWorld c2 = .error .typeError ∧
      c2.languages.Sorted (· ≤ ·) := by
  obtain ⟨c2, hc2⟩ : ∃ c2, Configuration.process demoWorld demoConfig = .ok c2 :=
    ⟨_, rfl⟩
  exact ⟨c2, hc2, process_not_idempotent demoWorld demoConfig c2 hc2⟩

/-- C6 counterexample: on a concrete fresh configuration the first resolution
succeeds with the sorted languages, but the second resolution on the same
(now mutated) configuration object raises `TypeError` instead of succeeding
with an identical sequence. -/
theorem process_idempotence_cex :
    (Configuration.process demoWorld demoConfig).map Configuration.languages =
      .ok ["lang1", "lang2"] ∧
    (Configuration.process demoWorld demoConfig >>= Configuration.process demoWorld) =
      .error .typeError :=
  ⟨rfl, rfl⟩

/-- C10 (amended): a successful resolution pass never leaves `log_every`
zero; it leaves it at least 1 whenever the chain length is non-negative and
any explicitly set `log_every` is non-negative.  (An explicitly negative
`log_every`, or a negative chain length with unset `log_every`, survives as a
negative logging interval.) -/
theorem log_every_positive (w : World) (c c2 : Configuration)
    (h : Configuration.process w c = .ok c2) :
    c2.log_every ≠ 0 ∧
    (0 ≤ c.chainlength → 0 ≤ c.log_every → 1 ≤ c2.log_every) := by
  have hle := (process_ok_shape w c c2 h).2.1
  rw [hle]
  unfold deriveLogEvery
  constructor
  · split
    · assumption
    · split
      · norm_num
      · assumption
  · intro hcl hle0
    split
    · rename_i hne; omega
    · split
      · norm_num
      · rename_i hne hq
        have := Int.fdiv_nonneg hcl (by norm_num : (0:Int) ≤ 10000)
        omega

/-- C10 witness: the derivation evaluated on the demo configuration
(`chainlength = 10000000`, unset `log_every`). -/
theorem log_every_positive_witness :
    0 ≤ demoConfig.chainlength ∧ 0 ≤ demoConfig.log_every ∧
    ∃ c2, Configuration.process demoWorld demoConfig = .ok c2 ∧
      c2.log_every ≠ 0 ∧ 1 ≤ c2.log_every := by
  obtain ⟨c2, hc2⟩ : ∃ c2, Configuration.process demoWorld demoConfig = .ok c2 :=
    ⟨_, rfl⟩
  have h := log_every_positive demoWorld demoConfig c2 hc2
  exact ⟨by decide, by decide, c2, hc2, h.1, h.2 (by decide) (by decide)⟩

/-- C10 counterexample: with `chainlength = -5000` and unset `log_every`, the
resolution pass succeeds and leaves `log_every = -1`, which is not at least
1 (though it is nonzero). -/
theorem log_every_cex :
    (Configuration.process demoWorld negChainConfig).map Configuration.log_every =
      .ok (-1) ∧
    ¬ (1 ≤ (-1 : Int)) :=
  ⟨rfl, by decide⟩

/-- C9: when the combined, filtered language set is empty, the final
resolution step fails with the `No languages specified!` error; consequently
a successful resolution never returns an empty language list (and no
document is built from a failed resolution). -/
theorem empty_language_set_fails :
    (∀ c : Configuration,
      combineLanguages c.overlap c.lang_filter (c.models.map Model.dataKeys) = .ok ∅ →
      languagesStep c = .error (.valueError "No languages specified!")) ∧
    (∀ (w : World) (c c2 : Configuration), Configuration.process w c = .ok c2 →
      c2.languages ≠ []) := by
  constructor
  · intro c h
    unfold languagesStep
    rw [h]
    simp
  · intro w c c2 h
    obtain ⟨_, _, s, hs, hlang⟩ := process_ok_shape w c c2 h
    rw [hlang]
    intro hnil
    apply hs
    have hlen : (pySortedFinset s).length = s.card := pySortedFinset_length s
    rw [hnil] at hlen
    simp only [List.length_nil] at hlen
    exact Finset.card_eq_zero.1 hlen.symm

/-- C9 witness: two disjoint datasets under the intersection policy. -/
theorem empty_language_set_fails_witness :
    combineLanguages disjointConfig.overlap disjointConfig.lang_filter
      (disjointConfig.models.map Model.dataKeys) = .ok ∅ ∧
    languagesStep disjointConfig = .error (.valueError "No languages specified!") := by
  have h : combineLanguages disjointConfig.overlap disjointConfig.lang_filter
      (disjointConfig.models.map Model.dataKeys) = .ok ∅ := by rfl
  exact ⟨h, empty_language_set_fails.1 disjointConfig h⟩

/-! ## C7 — duplicate taxa in datasets -/

lemma lookup_isSome_iff {β : Type} (l : List (String × β)) (a : String) :
    (l.lookup a).isSome ↔ a ∈ l.map Prod.fst := by
  induction l with
  | nil => simp [List.lookup]
  | cons p t ih =>
    rw [List.lookup]
    by_cases h : p.1 = a
    · simp [h]
    · have hba : (a == p.1) = false := beq_eq_false_iff_ne.2 (Ne.symm h)
      rw [hba]
      show (List.lookup a t).isSome = true ↔ a ∈ List.map Prod.fst (p :: t)
      rw [List.map_cons]
      constructor
      · intro h2
        exact List.mem_cons_of_mem _ (ih.1 h2)
      · intro hm
        rcases List.mem_cons.1 hm with hm | hm
        · exact absurd hm.symm h
        · exact ih.2 hm

lemma loadBeastlingAux_dup (c filename : String) :
    ∀ (rows : List Row) (data : List (String × Row)),
      (∀ row ∈ rows, (row.lookup c).isSome) →
      (data.map Prod.fst).Nodup →
      ¬ (data.map Prod.fst ++ rows.filterMap (fun row => row.lookup c)).Nodup →
      ∃ dup, loadBeastlingAux c filename rows data =
        .error (.valueError ("Duplicated language identifier " ++ dup ++
          " found in data file " ++ filename)) := by
  intro rows
  induction rows with
  | nil =>
    intro data _ hnd hdup
    exfalso
    apply hdup
    simpa using hnd
  | cons row rest ih =>
    intro data hcomp hnd hdup
    obtain ⟨v, hv⟩ := Option.isSome_iff_exists.1 (hcomp row (by simp))
    simp only [List.filterMap_cons, hv] at hdup
    by_cases hmem : (data.lookup v).isSome
    · refine ⟨v, ?_⟩
      simp only [loadBeastlingAux, hv]
      rw [if_pos hmem]
    · have hstep : loadBeastlingAux c filename (row :: rest) data =
          loadBeastlingAux c filename rest (data ++ [(v, row)]) := by
        simp only [loadBeastlingAux, hv]
        rw [if_neg hmem]
      rw [hstep]
      have hvnot : v ∉ data.map Prod.fst := fun hin =>
        hmem ((lookup_isSome_iff data v).2 hin)
      refine ih (data ++ [(v, row)]) (fun r hr => hcomp r (by simp [hr])) ?_ ?_
      · rw [List.map_append, List.nodup_append]
        refine ⟨hnd, by simp, ?_⟩
        intro x hx hx2
        simp only [List.map_cons, List.map_nil, List.mem_singleton] at hx2
        subst hx2
        exact hvnot hx
      · intro hnodup
        apply hdup
        rw [List.map_append, List.map_cons, List.map_nil] at hnodup
        rwa [List.append_assoc, List.singleton_append] at hnodup

/-- C7 (amended): for the wide (beastling) format, a dataset containing the
same taxon identifier in two records is rejected with the fatal duplicate
error.  (The long CLDF format legitimately carries one row per
taxon-and-feature pair and merges rows sharing a taxon, see the
counterexample.) -/
theorem beastling_duplicate_rejected
    (fieldnames : List String) (rows : List Row) (lang_column : Option String)
    (filename c : String)
    (hc : resolveLangColumn fieldnames lang_column = some c)
    (hin : fieldnames.contains c = true)
    (hcomp : ∀ row ∈ rows, (row.lookup c).isSome)
    (hdup : ¬ (rows.filterMap (fun row => row.lookup c)).Nodup) :
    ∃ dup, load_beastling_data fieldnames rows lang_column filename =
      .error (.valueError ("Duplicated language identifier " ++ dup ++
        " found in data file " ++ filename)) := by
  unfold load_beastling_data
  rw [hc]
  simp only [hin, if_true]
  refine loadBeastlingAux_dup c filename rows [] hcomp (by simp) ?_
  simpa using hdup

/-- C7 witness: two wide-format rows sharing the taxon identifier x. -/
theorem beastling_duplicate_rejected_witness :
    resolveLangColumn ["Language", "f1"] none = some "Language" ∧
    ¬ (dupBeastlingRows.filterMap (fun row => row.lookup "Language")).Nodup ∧
    ∃ dup, load_beastling_data ["Language", "f1"] dupBeastlingRows none "basic.csv" =
      .error (.valueError ("Duplicated language identifier " ++ dup ++
        " found in data file " ++ "basic.csv")) :=
  ⟨by decide, by decide,
    beastling_duplicate_rejected ["Language", "f1"] dupBeastlingRows none
      "basic.csv" "Language" (by decide) (by decide) (by decide) (by decide)⟩

/-- C7 counterexample: in the CLDF format, two records with the same taxon
identifier x do not make loading fail — they are merged into one entry with
both feature values. -/
theorem cldf_duplicate_merged_cex :
    dupCldfRows.filterMap (fun row => row.lookup "Language_ID") = ["x", "x"] ∧
    load_cldf_data ["Language_ID", "Feature_ID", "Value"] dupCldfRows =
      .ok [("x", [("f1", "1"), ("f2", "2")])] :=
  ⟨rfl, rfl⟩

/-! ## C8 — command-line exit codes -/

/-- C8 (amended): exit statuses of the two commands.  For `generate`: 1 when
a named input file is missing, 2 on a configuration parse or processing
error, 4 when the output file exists and overwrite was not requested, 3 on a
document-build error, 0 on success.  For `extract`: 1 when not exactly one
file is named, 2 — not 1 — when the named document file is missing, 3 on an
extraction error, 0 on success. -/
theorem cli_exit_codes :
    (∀ (a : GenArgs) (w : GenWorld),
      ((∃ conf ∈ a.config, conf ∉ w.existing) → do_generate a w = 1) ∧
      ((∀ conf ∈ a.config, conf ∈ w.existing) → w.parseOk = false →
        do_generate a w = 2) ∧
      ((∀ conf ∈ a.config, conf ∈ w.existing) → w.parseOk = true →
        a.output.getD w.defaultOut ∈ w.existing → a.overwrite = false →
        do_generate a w = 4) ∧
      ((∀ conf ∈ a.config, conf ∈ w.existing) → w.parseOk = true →
        ¬(a.output.getD w.defaultOut ∈ w.existing ∧ a.overwrite = false) →
        w.processOk = false → do_generate a w = 2) ∧
      ((∀ conf ∈ a.config, conf ∈ w.existing) → w.parseOk = true →
        ¬(a.output.getD w.defaultOut ∈ w.existing ∧ a.overwrite = false) →
        w.processOk = true → w.buildOk = false → do_generate a w = 3) ∧
      ((∀ conf ∈ a.config, conf ∈ w.existing) → w.parseOk = true →
        ¬(a.output.getD w.defaultOut ∈ w.existing ∧ a.overwrite = false) →
        w.processOk = true → w.buildOk = true → do_generate a w = 0)) ∧
    (∀ (a : ExtractArgs) (w : ExtractWorld),
      (a.config.length ≠ 1 → do_extract a w = 1) ∧
      (a.config.length = 1 → a.config.head?.getD "" ∉ w.existing →
        do_extract a w = 2) ∧
      (a.config.length = 1 → a.config.head?.getD "" ∈ w.existing →
        w.extractOk = false → do_extract a w = 3) ∧
      (a.config.length = 1 → a.config.head?.getD "" ∈ w.existing →
        w.extractOk = true → do_extract a w = 0)) := by
  constructor
  · intro a w
    have hmiss : ∀ conf, conf ∈ a.config → conf ∉ w.existing →
        (a.config.any (fun x => !w.existing.contains x)) = true := by
      intro conf hc hn
      rw [List.any_eq_true]
      exact ⟨conf, hc, by simp [List.elem_iff, hn]⟩
    have hall : (∀ conf ∈ a.config, conf ∈ w.existing) →
        (a.config.any (fun x => !w.existing.contains x)) = false := by
      intro h
      rw [List.any_eq_false]
      intro x hx
      simp [List.elem_iff, h x hx]
    refine ⟨?_, ?_, ?_, ?_, ?_, ?_⟩
    · rintro ⟨conf, hc, hn⟩
      rw [do_generate, if_pos (hmiss conf hc hn)]
    · intro h hp
      rw [do_generate, if_neg (by rw [hall h]; simp), if_pos (by simp [hp])]
    · intro h hp hout hov
      rw [do_generate, if_neg (by rw [hall h]; simp), if_neg (by simp [hp]),
        if_pos ⟨by simpa [List.elem_iff] using hout, hov⟩]
    · intro h hp hnot hproc
      rw [do_generate, if_neg (by rw [hall h]; simp), if_neg (by simp [hp]),
        if_neg (by simpa [List.elem_iff] using hnot), if_pos (by simp [hproc])]
    · intro h hp hnot hproc hbuild
      rw [do_generate, if_neg (by rw [hall h]; simp), if_neg (by simp [hp]),
        if_neg (by simpa [List.elem_iff] using hnot), if_neg (by simp [hproc]),
        if_pos (by simp [hbuild])]
    · intro h hp hnot hproc hbuild
      rw [do_generate, if_neg (by rw [hall h]; simp), if_neg (by simp [hp]),
        if_neg (by simpa [List.elem_iff] using hnot), if_neg (by simp [hproc]),
        if_neg (by simp [hbuild])]
  · intro a w
    refine ⟨?_, ?_, ?_, ?_⟩
    · intro h
      rw [do_extract, if_pos h]
    · intro h hn
      rw [do_extract, if_neg (by simp [h]), if_pos (by simp [List.elem_iff, hn])]
    · intro h hm hx
      rw [do_extract, if_neg (by simp [h]), if_neg (by simp [List.elem_iff, hm]),
        if_pos (by simp [hx])]
    · intro h hm hx
      rw [do_extract, if_neg (by simp [h]), if_neg (by simp [List.elem_iff, hm]),
        if_neg (by simp [hx])]

/-- C8 witness: a successful generate invocation exits with 0. -/
theorem cli_exit_codes_witness :
    (∀ conf ∈ (⟨["a.conf"], none, false⟩ : GenArgs).config,
      conf ∈ (⟨["a.conf"], true, true, true, "out.xml"⟩ : GenWorld).existing) ∧
    do_generate ⟨["a.conf"], none, false⟩ ⟨["a.conf"], true, true, true, "out.xml"⟩ = 0 := by
  refine ⟨by decide, ?_⟩
  exact (cli_exit_codes.1 ⟨["a.conf"], none, false⟩
      ⟨["a.conf"], true, true, true, "out.xml"⟩).2.2.2.2.2
    (by decide) rfl (by decide) rfl rfl

/-- C8 counterexample: an extract invocation naming one missing file exits
with status 2, not the status 1 the claim assigns to a missing input file. -/
theorem extract_missing_file_cex :
    do_extract ⟨["nope.xml"], false⟩ ⟨[], true⟩ = 2 ∧
    do_extract ⟨["nope.xml"], false⟩ ⟨[], true⟩ ≠ 1 :=
  ⟨rfl, by decide⟩

end Beastling
